import Mathlib

/-!
Verification of the Ultimate Tic-Tac-Toe rules engine (`src/ultimate_ttt.py`).

The state of the game is embedded shallowly: the 9x9 numpy `board` becomes a
function `Nat → Nat → Int` (int8 cell values `0, 1, -1` never overflow, so
plain `Int` is faithful), the 11-entry `extra_info` vector becomes a function
`Nat → Int` (entries 0..8 are sub-board statuses, entries 9 and 10 are the
forced-pointer coordinates), and `turn` is an `Int`.  Methods that return
`None` on failure are embedded as `Option`-valued functions.  All definitions
are executable.
-/

/-- State of the UTTT game, mirroring the fields of class `UTTT` together with
the `turn` field inherited from `mcts.State`. -/
structure UTTT where
  board : Nat → Nat → Int
  extra_info : Nat → Int
  turn : Int

/-- Modelled from the spec: the class `mcts.State` (imported by
`ultimate_ttt.py` but not under `src/`) initialises the `turn` of the root
state; spec section 3 fixes the root turn to `+1` (PlayerA moves first). -/
def rootTurn : Int := 1

/-- The root state built by `UTTT.__init__` with `parent = None`
(`ultimate_ttt.py` lines 32-36): all board cells `0`, statuses `0`, and the
forced pointer set to the centre sub-board `(1, 1)`. -/
def rootState : UTTT where
  board := fun _ _ => 0
  extra_info := fun k => if k = 9 then 1 else if k = 10 then 1 else 0
  turn := rootTurn

/-- Row of a move index: `i = action_index // 9` (line 136). -/
def rowOf (action_index : Nat) : Nat := action_index / 9

/-- Column of a move index: `j = action_index % 9` (line 137). -/
def colOf (action_index : Nat) : Nat := action_index % 9

/-- Sub-board row of a move index: `I = i // 3` (line 140). -/
def subRowOf (action_index : Nat) : Nat := rowOf action_index / 3

/-- Sub-board column of a move index: `J = j // 3` (line 141). -/
def subColOf (action_index : Nat) : Nat := colOf action_index / 3

/-- Row of the next forced sub-board: `I_next = i % 3` (line 177). -/
def nextRowOf (action_index : Nat) : Nat := rowOf action_index % 3

/-- Column of the next forced sub-board: `J_next = j % 3` (line 178). -/
def nextColOf (action_index : Nat) : Nat := colOf action_index % 3

/-- Embedding of `UTTT._check_subboard_winner` (lines 69-94): the row, column
and diagonal scans of a 3x3 sub-board, unrolled in the source's scan order,
returning the winning token or `0`. -/
def check_subboard_winner (sb : Nat → Nat → Int) : Int :=
  if sb 0 0 ≠ 0 ∧ sb 0 0 = sb 0 1 ∧ sb 0 1 = sb 0 2 then sb 0 0
  else if sb 1 0 ≠ 0 ∧ sb 1 0 = sb 1 1 ∧ sb 1 1 = sb 1 2 then sb 1 0
  else if sb 2 0 ≠ 0 ∧ sb 2 0 = sb 2 1 ∧ sb 2 1 = sb 2 2 then sb 2 0
  else if sb 0 0 ≠ 0 ∧ sb 0 0 = sb 1 0 ∧ sb 1 0 = sb 2 0 then sb 0 0
  else if sb 0 1 ≠ 0 ∧ sb 0 1 = sb 1 1 ∧ sb 1 1 = sb 2 1 then sb 0 1
  else if sb 0 2 ≠ 0 ∧ sb 0 2 = sb 1 2 ∧ sb 1 2 = sb 2 2 then sb 0 2
  else if sb 0 0 ≠ 0 ∧ sb 0 0 = sb 1 1 ∧ sb 1 1 = sb 2 2 then sb 0 0
  else if sb 0 2 ≠ 0 ∧ sb 0 2 = sb 1 1 ∧ sb 1 1 = sb 2 0 then sb 0 2
  else 0

/-- Rejection condition of `UTTT.take_action` (lines 143-157): the target cell
is occupied, or the forced pointer is set, names an open sub-board, and the
move lies outside it.  The early `return None` branches of the source are
collected into one disjunction. -/
def UTTT.rejectsMove (s : UTTT) (action_index : Nat) : Prop :=
  s.board (rowOf action_index) (colOf action_index) ≠ 0 ∨
    (s.extra_info 9 ≠ -1 ∧ s.extra_info 10 ≠ -1 ∧
      (s.extra_info (s.extra_info 9 * 3 + s.extra_info 10).toNat = 0 ∨
        s.extra_info (s.extra_info 9 * 3 + s.extra_info 10).toNat = 2) ∧
      ((subRowOf action_index : Int) ≠ s.extra_info 9 ∨
        (subColOf action_index : Int) ≠ s.extra_info 10))

instance (s : UTTT) (a : Nat) : Decidable (s.rejectsMove a) := by
  unfold UTTT.rejectsMove
  exact inferInstance

/-- Board of the child state (line 163): the parent's board with the mover's
token placed on the target cell. -/
def UTTT.boardAfter (s : UTTT) (action_index : Nat) : Nat → Nat → Int :=
  fun r c =>
    if r = rowOf action_index ∧ c = colOf action_index then s.turn else s.board r c

/-- The 3x3 sub-board slice of the child board containing the move
(line 166). -/
def UTTT.subBoardAfter (s : UTTT) (action_index : Nat) : Nat → Nat → Int :=
  fun p q =>
    s.boardAfter action_index (subRowOf action_index * 3 + p)
      (subColOf action_index * 3 + q)

/-- New status of the played sub-board (lines 167-174): the winner if a line
exists, `-2` if the sub-board is full with no winner, else `2`. -/
def UTTT.statusAfter (s : UTTT) (action_index : Nat) : Int :=
  if check_subboard_winner (s.subBoardAfter action_index) ≠ 0 then
    check_subboard_winner (s.subBoardAfter action_index)
  else if ∀ p : Fin 3, ∀ q : Fin 3, s.subBoardAfter action_index p.val q.val ≠ 0 then
    -2
  else 2

/-- The child's `extra_info` after the status write of line 170/172/174, before
the forced pointer is updated. -/
def UTTT.extraAfterStatus (s : UTTT) (action_index : Nat) : Nat → Int :=
  fun k =>
    if k = subRowOf action_index * 3 + subColOf action_index then
      s.statusAfter action_index
    else s.extra_info k

/-- Status of the sub-board the move points to, read from the child's
`extra_info` after the status write (line 179) — so a move that closes its own
sub-board and points back into it reads the fresh closed status. -/
def UTTT.nextState (s : UTTT) (action_index : Nat) : Int :=
  s.extraAfterStatus action_index (nextRowOf action_index * 3 + nextColOf action_index)

/-- The child's final `extra_info` (lines 181-186): the forced pointer at
entries 9 and 10 is the pointed-to sub-board if it is open (`0` or `2`) and the
sentinel `(-1, -1)` otherwise. -/
def UTTT.extraAfter (s : UTTT) (action_index : Nat) : Nat → Int :=
  fun k =>
    if k = 9 then
      if s.nextState action_index = 0 ∨ s.nextState action_index = 2 then
        (nextRowOf action_index : Int)
      else -1
    else if k = 10 then
      if s.nextState action_index = 0 ∨ s.nextState action_index = 2 then
        (nextColOf action_index : Int)
      else -1
    else s.extraAfterStatus action_index k

/-- The accepted-move child state (lines 159-191): updated board and
`extra_info`, and the turn flipped (line 189). -/
def UTTT.childState (s : UTTT) (action_index : Nat) : UTTT where
  board := s.boardAfter action_index
  extra_info := s.extraAfter action_index
  turn := -s.turn

/-- Embedding of `UTTT.take_action` (lines 96-191): `none` models the
`return None` rejection branches, `some` the returned child. -/
def UTTT.take_action (s : UTTT) (action_index : Nat) : Option UTTT :=
  if s.rejectsMove action_index then none else some (s.childState action_index)

/-- Application of a sequence of moves via `take_action`, for accepted-move
sequences from a given state. -/
def playSeq : UTTT → List Nat → Option UTTT
  | s, [] => some s
  | s, a :: rest =>
    match s.take_action a with
    | none => none
    | some c => playSeq c rest

/-- The eight main-board win lines of `compute_outcome` and of
`compute_outcome_job_numba_jit` (lines 199-208 and 232-241, identical in
both). -/
def win_scenarios : List (Nat × Nat × Nat) :=
  [(0, 1, 2), (3, 4, 5), (6, 7, 8), (0, 3, 6), (1, 4, 7), (2, 5, 8), (0, 4, 8), (2, 4, 6)]

/-- A line's three statuses are equal with common value `+1` or `-1` — the
per-scenario test of lines 212 and 245. -/
def lineWinVal (M : Nat → Int) (t : Nat × Nat × Nat) : Prop :=
  M t.1 = M t.2.1 ∧ M t.2.1 = M t.2.2 ∧ (M t.1 = 1 ∨ M t.1 = -1)

instance (M : Nat → Int) (t : Nat × Nat × Nat) : Decidable (lineWinVal M t) := by
  unfold lineWinVal
  exact inferInstance

/-- The scenario loop of lines 210-213 (and 243-246): the value of the first
matching win line, if any. -/
def firstWin (M : Nat → Int) : List (Nat × Nat × Nat) → Option Int
  | [] => none
  | t :: rest => if lineWinVal M t then some (M t.1) else firstWin M rest

/-- Embedding of `UTTT.compute_outcome` (lines 193-226): the first matching
line's value, else `0` when no sub-board status is `0` or `2` (the `finished`
loop of lines 216-220), else `None` (ongoing), modelled as `Option.none`. -/
def UTTT.compute_outcome (s : UTTT) : Option Int :=
  match firstWin s.extra_info win_scenarios with
  | some v => some v
  | none =>
    if ∀ k : Fin 9, ¬(s.extra_info k.val = 0 ∨ s.extra_info k.val = 2) then some 0
    else none

/-- Embedding of `compute_outcome_job_numba_jit` (lines 228-257): the same
scan over `extra_info[:9]`, but the ongoing case returns the numeric `2`. -/
def compute_outcome_job_numba_jit (extra_info : Nat → Int) : Int :=
  match firstWin extra_info win_scenarios with
  | some v => v
  | none =>
    if ∀ k : Fin 9, ¬(extra_info k.val = 0 ∨ extra_info k.val = 2) then 0
    else 2

/-- Modelled from the spec: `UTTT.__init__` with a parent copies the parent's
`board` and `extra_info` (lines 29-31, under `src/`); the `turn` field is
handled by the missing `mcts.State` constructor, and per spec section 3 a
fresh copy carries its parent's data unchanged, so the copy keeps the parent's
turn (`take_action` then overwrites it explicitly on line 189). -/
def UTTT.copyState (s : UTTT) : UTTT where
  board := s.board
  extra_info := s.extra_info
  turn := s.turn

/-- Legal-destination enumeration of `take_random_action_playout`
(lines 262-285): all empty cells of every open sub-board when the pointer is
the sentinel, else the empty cells of the forced sub-board; pairs are
`(row, col)` coordinates in the 9x9 board, enumerated row-major as
`np.argwhere` does. -/
def UTTT.possible_moves (s : UTTT) : List (Nat × Nat) :=
  if s.extra_info 9 = -1 ∧ s.extra_info 10 = -1 then
    (List.range 3).flatMap fun I =>
      (List.range 3).flatMap fun J =>
        if s.extra_info (I * 3 + J) = 0 ∨ s.extra_info (I * 3 + J) = 2 then
          (List.range 3).flatMap fun p =>
            (List.range 3).filterMap fun q =>
              if s.board (I * 3 + p) (J * 3 + q) = 0 then some (p + I * 3, q + J * 3)
              else none
        else []
  else
    (List.range 3).flatMap fun p =>
      (List.range 3).filterMap fun q =>
        if s.board ((s.extra_info 9).toNat * 3 + p) ((s.extra_info 10).toNat * 3 + q) = 0 then
          some (p + (s.extra_info 9).toNat * 3, q + (s.extra_info 10).toNat * 3)
        else none

/-- Embedding of `UTTT.take_random_action_playout` (lines 259-294).  The draw
`np.random.randint(len(possible_moves))` is modelled by the parameter `r`
reduced modulo the list length, so every value in `[0, len)` is reachable.
Exactly as in the source, the result of `child.take_action(action_index)` is
bound and discarded, and the unmodified copy `child` is returned. -/
def UTTT.take_random_action_playout (s : UTTT) (r : Nat) : Option UTTT :=
  let child := s.copyState
  let moves := child.possible_moves
  if moves = [] then none
  else
    let m := moves.getD (r % moves.length) (0, 0)
    let action_index := m.1 * 9 + m.2
    let _ := child.take_action action_index
    some child

/-- Embedding of `UTTT.action_name_to_index` (lines 317-329), i.e. Python's
`int(action_name)`: an action name is decimal text, modelled as its list of
characters, and parsing folds the digit values left to right. -/
def UTTT.action_name_to_index (action_name : List Char) : Nat :=
  action_name.foldl (fun n c => 10 * n + (c.toNat - 48)) 0

/-- Embedding of `UTTT.action_index_to_name` (lines 331-343), i.e. Python's
`str(action_index)`: the decimal text of the index, as a list of
characters. -/
def UTTT.action_index_to_name (action_index : Nat) : List Char :=
  Nat.toDigits 10 action_index

/-- States reachable from the root by accepted `take_action` moves. -/
inductive Reachable : UTTT → Prop where
  | base : Reachable rootState
  | step {s c : UTTT} {a : Nat} : Reachable s → s.take_action a = some c → Reachable c

/-- Forced-pointer consistency (spec section 8): the pointer is the sentinel
`(-1, -1)`, or it is in range and names a sub-board whose status is open. -/
def pointerInv (s : UTTT) : Prop :=
  (s.extra_info 9 = -1 ∧ s.extra_info 10 = -1) ∨
    (0 ≤ s.extra_info 9 ∧ s.extra_info 9 ≤ 2 ∧ 0 ≤ s.extra_info 10 ∧ s.extra_info 10 ≤ 2 ∧
      (s.extra_info (s.extra_info 9 * 3 + s.extra_info 10).toNat = 0 ∨
        s.extra_info (s.extra_info 9 * 3 + s.extra_info 10).toNat = 2))

instance (s : UTTT) : Decidable (pointerInv s) := by
  unfold pointerInv
  exact inferInstance

/-! ### Basic lemmas about `take_action` -/

lemma take_action_eq_some_iff {s : UTTT} {a : Nat} {c : UTTT} :
    s.take_action a = some c ↔ ¬s.rejectsMove a ∧ c = s.childState a := by
  unfold UTTT.take_action
  by_cases h : s.rejectsMove a
  · simp [h]
  · simp [h, eq_comm]

lemma take_action_eq_none_iff {s : UTTT} {a : Nat} :
    s.take_action a = none ↔ s.rejectsMove a := by
  unfold UTTT.take_action
  by_cases h : s.rejectsMove a <;> simp [h]

lemma nextRowOf_lt (a : Nat) : nextRowOf a < 3 := Nat.mod_lt _ (by omega)

lemma nextColOf_lt (a : Nat) : nextColOf a < 3 := Nat.mod_lt _ (by omega)

lemma nextIdx_le (a : Nat) : nextRowOf a * 3 + nextColOf a ≤ 8 := by
  have h1 := nextRowOf_lt a
  have h2 := nextColOf_lt a
  omega

lemma extraAfter_small {s : UTTT} {a k : Nat} (hk : k ≤ 8) :
    s.extraAfter a k = s.extraAfterStatus a k := by
  unfold UTTT.extraAfter
  rw [if_neg (by omega), if_neg (by omega)]

lemma extraAfter_nine (s : UTTT) (a : Nat) :
    s.extraAfter a 9 =
      if s.nextState a = 0 ∨ s.nextState a = 2 then (nextRowOf a : Int) else -1 := rfl

lemma extraAfter_ten (s : UTTT) (a : Nat) :
    s.extraAfter a 10 =
      if s.nextState a = 0 ∨ s.nextState a = 2 then (nextColOf a : Int) else -1 := rfl

lemma childState_pointerInv (s : UTTT) (a : Nat) : pointerInv (s.childState a) := by
  have hb : (s.childState a).extra_info = s.extraAfter a := rfl
  by_cases h : s.nextState a = 0 ∨ s.nextState a = 2
  · right
    have h9 : (s.childState a).extra_info 9 = (nextRowOf a : Int) := by
      rw [hb, extraAfter_nine, if_pos h]
    have h10 : (s.childState a).extra_info 10 = (nextColOf a : Int) := by
      rw [hb, extraAfter_ten, if_pos h]
    have hr := nextRowOf_lt a
    have hc := nextColOf_lt a
    refine ⟨by omega, by omega, by omega, by omega, ?_⟩
    have hidx : ((s.childState a).extra_info 9 * 3 + (s.childState a).extra_info 10).toNat =
        nextRowOf a * 3 + nextColOf a := by
      rw [h9, h10]; omega
    rw [hidx, hb, extraAfter_small (nextIdx_le a)]
    exact h
  · left
    constructor
    · rw [hb, extraAfter_nine, if_neg h]
    · rw [hb, extraAfter_ten, if_neg h]

lemma take_action_turn {s : UTTT} {a : Nat} {c : UTTT} (h : s.take_action a = some c) :
    c.turn = -s.turn := by
  rcases take_action_eq_some_iff.mp h with ⟨-, rfl⟩
  rfl

lemma playSeq_turn : ∀ (l : List Nat) (s c : UTTT), playSeq s l = some c →
    c.turn = if l.length % 2 = 0 then s.turn else -s.turn := by
  intro l
  induction l with
  | nil =>
    intro s c h
    unfold playSeq at h
    injection h with h
    simp [h]
  | cons a rest ih =>
    intro s c h
    unfold playSeq at h
    rcases htake : s.take_action a with - | m
    · rw [htake] at h
      exact absurd h (by simp)
    · rw [htake] at h
      have hrest := ih m c h
      have hflip := take_action_turn htake
      by_cases hp : rest.length % 2 = 0
      · rw [if_pos hp] at hrest
        rw [hrest, hflip, if_neg (by simp; omega)]
      · rw [if_neg hp] at hrest
        rw [hrest, hflip, neg_neg, if_pos (by simp; omega)]

/-! ### Claim theorems -/

/-- C1: the playout sampler never advances the state.  For every state and
every drawn random value, `take_random_action_playout` returns either `none`
or the input state itself, because the source discards the child produced by
`child.take_action(action_index)` and returns the unmodified copy.  At the
root, nine legal centre-sub-board moves exist, yet the returned state is the
root itself, whose target cells are still `Empty` and whose turn is unflipped
— refuting the claimed post-state and confirming the slip in the code. -/
theorem take_random_action_playout_never_advances :
    (∀ (s : UTTT) (r : Nat),
      s.take_random_action_playout r = none ∨ s.take_random_action_playout r = some s) ∧
    rootState.possible_moves =
      [(3, 3), (3, 4), (3, 5), (4, 3), (4, 4), (4, 5), (5, 3), (5, 4), (5, 5)] ∧
    rootState.take_random_action_playout 0 = some rootState ∧
    rootState.board 3 3 = 0 ∧ rootState.turn = 1 := by
  refine ⟨fun s r => ?_, by decide, rfl, rfl, rfl⟩
  unfold UTTT.take_random_action_playout
  by_cases h : s.copyState.possible_moves = []
  · left
    simp [h]
  · right
    simp [h]
    rfl

/-- C2: a closed sub-board can be re-entered, contradicting the claim.  From
the root, the move sequence `[31, 13, 49, 67, 40]` is accepted move by move
and leaves sub-board `(1, 1)` won by PlayerA (`status[4] = +1`), cell `(3, 3)`
inside it still empty, and the forced pointer at the sentinel `(-1, -1)`.
The next call `take_action 30` — a move into the closed sub-board — is then
accepted and writes PlayerB's token to cell `(3, 3)` while `status[4]`
remains `+1`. -/
theorem closed_subboard_reentered :
    (playSeq rootState [31, 13, 49, 67, 40]).map (fun s => s.extra_info 4) = some 1 ∧
    (playSeq rootState [31, 13, 49, 67, 40]).map (fun s => s.board 3 3) = some 0 ∧
    (playSeq rootState [31, 13, 49, 67, 40]).map (fun s => s.extra_info 9) = some (-1) ∧
    (playSeq rootState [31, 13, 49, 67, 40]).map (fun s => s.extra_info 10) = some (-1) ∧
    (playSeq rootState [31, 13, 49, 67, 40, 30]).map (fun s => s.board 3 3) = some (-1) ∧
    (playSeq rootState [31, 13, 49, 67, 40, 30]).map (fun s => s.extra_info 4) = some 1 := by
  decide

/-- C4: rejection characterisation of `take_action`.  For every state
satisfying the forced-pointer invariant of the data model and every move index
in range, the move is rejected exactly when the target cell is occupied or the
pointer is set and the move lies outside the forced sub-board.  (In the
embedding `take_action` is pure, so the input state is trivially left
untouched on rejection.) -/
theorem take_action_rejects_iff (s : UTTT) (idx : Nat) (_hidx : idx ≤ 80)
    (hptr : pointerInv s) :
    s.take_action idx = none ↔
      (s.board (rowOf idx) (colOf idx) ≠ 0 ∨
        (¬(s.extra_info 9 = -1 ∧ s.extra_info 10 = -1) ∧
          ¬((subRowOf idx : Int) = s.extra_info 9 ∧
            (subColOf idx : Int) = s.extra_info 10))) := by
  rw [take_action_eq_none_iff]
  unfold UTTT.rejectsMove
  rcases hptr with ⟨h9, h10⟩ | ⟨h9a, h9b, h10a, h10b, hopen⟩
  · rw [h9, h10]
    constructor
    · rintro (hc | ⟨hbad, -⟩)
      · exact Or.inl hc
      · exact absurd rfl hbad
    · rintro (hc | ⟨hbad, -⟩)
      · exact Or.inl hc
      · exact absurd ⟨rfl, rfl⟩ hbad
  · have h9 : s.extra_info 9 ≠ -1 := by omega
    have h10 : s.extra_info 10 ≠ -1 := by omega
    constructor
    · rintro (hc | ⟨-, -, -, hmis⟩)
      · exact Or.inl hc
      · exact Or.inr ⟨by tauto, by tauto⟩
    · rintro (hc | ⟨-, hmis⟩)
      · exact Or.inl hc
      · exact Or.inr ⟨h9, h10, hopen, by tauto⟩

/-- Witness for C4: at the root the forced pointer is `(1, 1)`, so the move
with index `0` (sub-board `(0, 0)`) is rejected. -/
theorem take_action_rejects_iff_witness : rootState.take_action 0 = none :=
  (take_action_rejects_iff rootState 0 (by norm_num) (by decide)).mpr (Or.inr (by decide))

/-- C5: forced-pointer consistency.  Every reachable state has its pointer at
the sentinel `(-1, -1)` or naming an in-range open sub-board; the root points
at `(1, 1)` whose status is `0`; and every accepted move sets the pointer to
`(row % 3, col % 3)` when that sub-board's fresh status is `0` or `2`, and to
the sentinel otherwise. -/
theorem forced_pointer_consistent :
    (∀ s : UTTT, Reachable s → pointerInv s) ∧
    (rootState.extra_info 9 = 1 ∧ rootState.extra_info 10 = 1 ∧ rootState.extra_info 4 = 0) ∧
    (∀ (s : UTTT) (a : Nat) (c : UTTT), s.take_action a = some c →
      ((s.nextState a = 0 ∨ s.nextState a = 2) →
        c.extra_info 9 = (nextRowOf a : Int) ∧ c.extra_info 10 = (nextColOf a : Int)) ∧
      (¬(s.nextState a = 0 ∨ s.nextState a = 2) →
        c.extra_info 9 = -1 ∧ c.extra_info 10 = -1)) := by
  refine ⟨?_, ⟨rfl, rfl, rfl⟩, ?_⟩
  · intro s hs
    induction hs with
    | base => decide
    | step hr htake ih =>
      rcases take_action_eq_some_iff.mp htake with ⟨-, rfl⟩
      exact childState_pointerInv _ _
  · intro s a c htake
    rcases take_action_eq_some_iff.mp htake with ⟨-, rfl⟩
    have hb : (s.childState a).extra_info = s.extraAfter a := rfl
    constructor
    · intro h0
      exact ⟨by rw [hb, extraAfter_nine, if_pos h0], by rw [hb, extraAfter_ten, if_pos h0]⟩
    · intro h0
      exact ⟨by rw [hb, extraAfter_nine, if_neg h0], by rw [hb, extraAfter_ten, if_neg h0]⟩

/-- Witness for C5: the invariant instantiated at the (reachable) root. -/
theorem forced_pointer_consistent_witness : pointerInv rootState :=
  forced_pointer_consistent.1 rootState Reachable.base

/-- C6: turn alternation.  After any accepted sequence of `k` moves from the
root the turn is `+1` for even `k` and `-1` for odd `k`; equivalently every
accepted `take_action` flips the turn of the child relative to its parent. -/
theorem turn_alternation :
    (∀ (l : List Nat) (c : UTTT), playSeq rootState l = some c →
      c.turn = if l.length % 2 = 0 then 1 else -1) ∧
    (∀ (s : UTTT) (a : Nat) (c : UTTT), s.take_action a = some c → c.turn = -s.turn) := by
  refine ⟨fun l c h => ?_, fun s a c h => take_action_turn h⟩
  have hr := playSeq_turn l rootState c h
  by_cases hp : l.length % 2 = 0
  · rw [if_pos hp] at hr
    rw [if_pos hp]
    exact hr
  · rw [if_neg hp] at hr
    rw [if_neg hp]
    exact hr

/-- The state reached by the single accepted move `31` from the root. -/
def stateAfter31 : UTTT := (playSeq rootState [31]).getD rootState

/-- Witness for C6: after the one-move sequence `[31]` the turn is `-1`. -/
theorem turn_alternation_witness : stateAfter31.turn = -1 := by
  have h : playSeq rootState [31] = some stateAfter31 := rfl
  have hr := turn_alternation.1 [31] stateAfter31 h
  simpa using hr

/-- C7: an accepted move changes exactly one board cell.  For every state with
a proper turn token and every accepted move, the target cell of the parent was
`Empty`, in the child it holds the parent's turn token (so its value really
changed), and every other cell is unchanged.  In the embedding the child's
arrays are fresh values built from the parent's, and `take_action` never
mutates its input, matching the `np.copy` derivation of the source. -/
theorem move_changes_exactly_one_cell (s : UTTT) (a : Nat)
    (hturn : s.turn = 1 ∨ s.turn = -1) (c : UTTT) (h : s.take_action a = some c) :
    s.board (rowOf a) (colOf a) = 0 ∧
    c.board (rowOf a) (colOf a) = s.turn ∧
    c.board (rowOf a) (colOf a) ≠ s.board (rowOf a) (colOf a) ∧
    (∀ r q : Nat, ¬(r = rowOf a ∧ q = colOf a) → c.board r q = s.board r q) := by
  rcases take_action_eq_some_iff.mp h with ⟨hrej, rfl⟩
  have hempty : s.board (rowOf a) (colOf a) = 0 := by
    by_contra hne
    exact hrej (Or.inl hne)
  have hb : (s.childState a).board = s.boardAfter a := rfl
  refine ⟨hempty, ?_, ?_, ?_⟩
  · rw [hb]
    unfold UTTT.boardAfter
    simp
  · rw [hb]
    unfold UTTT.boardAfter
    simp only [and_self, if_pos, hempty]
    rcases hturn with h1 | h1 <;> rw [h1] <;> norm_num
  · intro r q hrq
    rw [hb]
    unfold UTTT.boardAfter
    rw [if_neg hrq]

/-- The child state of the accepted move `31` at the root. -/
def childAfter31 : UTTT := (rootState.take_action 31).getD rootState

/-- Witness for C7: the move `31` from the root writes PlayerA's token to cell
`(3, 4)`. -/
theorem move_changes_exactly_one_cell_witness : childAfter31.board 3 4 = 1 := by
  have h : rootState.take_action 31 = some childAfter31 := rfl
  have hr := move_changes_exactly_one_cell rootState 31 (Or.inl rfl) childAfter31 h
  exact hr.2.1

/-- C8: move naming is a bidirectional round trip.  For every index in
`[0, 80]` the name is the decimal text of the index and parsing it returns the
index; conversely printing the parse of any canonical name in that range
returns the name. -/
theorem action_naming_round_trip :
    ∀ idx : Fin 81,
      UTTT.action_index_to_name idx.val = Nat.toDigits 10 idx.val ∧
      UTTT.action_name_to_index (UTTT.action_index_to_name idx.val) = idx.val ∧
      UTTT.action_index_to_name (UTTT.action_name_to_index (Nat.toDigits 10 idx.val)) =
        Nat.toDigits 10 idx.val := by
  decide

/-! ### Outcome evaluation -/

lemma firstWin_eq_none_iff (M : Nat → Int) (l : List (Nat × Nat × Nat)) :
    firstWin M l = none ↔ ∀ t ∈ l, ¬lineWinVal M t := by
  induction l with
  | nil => simp [firstWin]
  | cons t rest ih =>
    unfold firstWin
    by_cases h : lineWinVal M t
    · simp [h]
    · simp [h, ih]

lemma firstWin_eq_some {M : Nat → Int} {l : List (Nat × Nat × Nat)} {v : Int}
    (h : firstWin M l = some v) : ∃ t ∈ l, lineWinVal M t ∧ v = M t.1 := by
  induction l with
  | nil => simp [firstWin] at h
  | cons t rest ih =>
    unfold firstWin at h
    by_cases hl : lineWinVal M t
    · rw [if_pos hl] at h
      injection h with h
      exact ⟨t, by simp, hl, h.symm⟩
    · rw [if_neg hl] at h
      rcases ih h with ⟨u, hu, hw, hv⟩
      exact ⟨u, by simp [hu], hw, hv⟩

/-- C3: characterisation of `compute_outcome`.  For every state whose nine
sub-board statuses are in the status alphabet: if one of the eight win lines
has three equal entries with common value `+1` or `-1`, the result is that
winning value (of a matching line); otherwise the result is the draw `0`
exactly when every status is closed, and on any still-open vector the result
is the non-numeric ongoing signal `none`, distinct from every numeric
value. -/
theorem compute_outcome_characterisation (s : UTTT)
    (hM : ∀ k : Fin 9, s.extra_info k.val = 0 ∨ s.extra_info k.val = 1 ∨
      s.extra_info k.val = -1 ∨ s.extra_info k.val = 2 ∨ s.extra_info k.val = -2) :
    ((∃ t ∈ win_scenarios, lineWinVal s.extra_info t) →
      ∃ t ∈ win_scenarios, lineWinVal s.extra_info t ∧
        s.compute_outcome = some (s.extra_info t.1) ∧
        (s.extra_info t.1 = 1 ∨ s.extra_info t.1 = -1)) ∧
    ((∀ t ∈ win_scenarios, ¬lineWinVal s.extra_info t) →
      ((s.compute_outcome = some 0 ↔
          ∀ k : Fin 9, s.extra_info k.val = 1 ∨ s.extra_info k.val = -1 ∨
            s.extra_info k.val = -2) ∧
        ((¬∀ k : Fin 9, s.extra_info k.val = 1 ∨ s.extra_info k.val = -1 ∨
            s.extra_info k.val = -2) →
          s.compute_outcome = none ∧ ∀ v : Int, s.compute_outcome ≠ some v))) := by
  rcases hfw : firstWin s.extra_info win_scenarios with - | v
  · constructor
    · rintro ⟨t, ht, hw⟩
      exact absurd hw ((firstWin_eq_none_iff _ _).mp hfw t ht)
    · intro hno
      have hout : s.compute_outcome =
          if ∀ k : Fin 9, ¬(s.extra_info k.val = 0 ∨ s.extra_info k.val = 2) then some 0
          else none := by
        unfold UTTT.compute_outcome
        rw [hfw]
      by_cases hfin : ∀ k : Fin 9, ¬(s.extra_info k.val = 0 ∨ s.extra_info k.val = 2)
      · rw [if_pos hfin] at hout
        have hcl : ∀ k : Fin 9, s.extra_info k.val = 1 ∨ s.extra_info k.val = -1 ∨
            s.extra_info k.val = -2 := by
          intro k
          have ha := hM k
          have hb := hfin k
          omega
        exact ⟨⟨fun _ => hcl, fun _ => hout⟩, fun hncl => absurd hcl hncl⟩
      · rw [if_neg hfin] at hout
        constructor
        · constructor
          · intro h0
            rw [hout] at h0
            exact absurd h0 (by simp)
          · intro hcl
            exfalso
            apply hfin
            intro k
            have := hcl k
            omega
        · intro hncl
          refine ⟨hout, fun v => ?_⟩
          rw [hout]
          simp
  · have hout : s.compute_outcome = some v := by
      unfold UTTT.compute_outcome
      rw [hfw]
    obtain ⟨t, ht, hw, hv⟩ := firstWin_eq_some hfw
    constructor
    · intro _hex
      exact ⟨t, ht, hw, by rw [hout, hv], hw.2.2⟩
    · intro hno
      exact absurd hw (hno t ht)

/-- Witness for C3: at the root no line matches, the statuses are not all
closed, and the outcome is the ongoing signal. -/
theorem compute_outcome_characterisation_witness : rootState.compute_outcome = none := by
  have h := (compute_outcome_characterisation rootState (by decide)).2 (by decide)
  exact (h.2 (by decide)).1

/-- C9: refinement between the two outcome implementations.  For every state
(equivalently, every 11-entry status vector fed to both scans): whenever
`compute_outcome` yields a decided or drawn numeric result, the jit variant
yields the same number; on every ongoing vector `compute_outcome` yields the
non-numeric `none` — distinct from every `some v` — while the jit variant
yields the numeric `2`. -/
theorem jit_outcome_agreement (s : UTTT) :
    (∀ v : Int, s.compute_outcome = some v → compute_outcome_job_numba_jit s.extra_info = v) ∧
    (s.compute_outcome = none →
      compute_outcome_job_numba_jit s.extra_info = 2 ∧
        ∀ v : Int, s.compute_outcome ≠ some v) := by
  rcases hfw : firstWin s.extra_info win_scenarios with - | v
  · have hc : s.compute_outcome =
        if ∀ k : Fin 9, ¬(s.extra_info k.val = 0 ∨ s.extra_info k.val = 2) then some 0
        else none := by
      unfold UTTT.compute_outcome
      rw [hfw]
    have hj : compute_outcome_job_numba_jit s.extra_info =
        if ∀ k : Fin 9, ¬(s.extra_info k.val = 0 ∨ s.extra_info k.val = 2) then 0 else 2 := by
      unfold compute_outcome_job_numba_jit
      rw [hfw]
    by_cases hfin : ∀ k : Fin 9, ¬(s.extra_info k.val = 0 ∨ s.extra_info k.val = 2)
    · rw [if_pos hfin] at hc hj
      rw [hc, hj]
      exact ⟨fun v hv => Option.some.inj hv, fun hcon => by simp at hcon⟩
    · rw [if_neg hfin] at hc hj
      rw [hc, hj]
      exact ⟨fun v hv => by simp at hv, fun _ => ⟨rfl, fun v => by simp⟩⟩
  · have hc : s.compute_outcome = some v := by
      unfold UTTT.compute_outcome
      rw [hfw]
    have hj : compute_outcome_job_numba_jit s.extra_info = v := by
      unfold compute_outcome_job_numba_jit
      rw [hfw]
    rw [hc, hj]
    exact ⟨fun w hw => Option.some.inj hw, fun hcon => by simp at hcon⟩

/-- Witness for C9: the root state is ongoing, so `compute_outcome` is `none`
while the jit variant returns `2`. -/
theorem jit_outcome_agreement_witness :
    compute_outcome_job_numba_jit rootState.extra_info = 2 :=
  ((jit_outcome_agreement rootState).2 (by decide)).1

/-- C10: index arithmetic of `take_action` stays in bounds.  For every move
index in `[0, 80]` the row and column are in `[0, 8]`, the sub-board
coordinates in `[0, 2]`, every `extra_info` index read or written — the status
cell of the played sub-board, the pointed-to status cell, and the pointer
entries derived from an in-range forced pointer — is below `11`, and
`take_action` is total: it reduces to its rejection test and child
construction on every input. -/
theorem index_arithmetic_in_bounds (s : UTTT) (idx : Nat) (hidx : idx ≤ 80)
    (I_now J_now : Int) (h1 : 0 ≤ I_now) (h2 : I_now ≤ 2) (h3 : 0 ≤ J_now) (h4 : J_now ≤ 2) :
    rowOf idx ≤ 8 ∧ colOf idx ≤ 8 ∧ subRowOf idx ≤ 2 ∧ subColOf idx ≤ 2 ∧
    subRowOf idx * 3 + subColOf idx < 11 ∧ nextRowOf idx * 3 + nextColOf idx < 11 ∧
    (I_now * 3 + J_now).toNat < 11 ∧
    s.take_action idx = if s.rejectsMove idx then none else some (s.childState idx) := by
  refine ⟨?_, ?_, ?_, ?_, ?_, ?_, ?_, rfl⟩
  · unfold rowOf
    omega
  · unfold colOf
    omega
  · unfold subRowOf rowOf
    omega
  · unfold subColOf colOf
    omega
  · unfold subRowOf subColOf rowOf colOf
    omega
  · unfold nextRowOf nextColOf rowOf colOf
    omega
  · omega

/-- Witness for C10: the bounds instantiated at the largest move index `80`
and the extreme in-range pointer `(2, 2)`, at the root state. -/
theorem index_arithmetic_in_bounds_witness :
    rowOf 80 ≤ 8 ∧ colOf 80 ≤ 8 ∧ subRowOf 80 ≤ 2 ∧ subColOf 80 ≤ 2 ∧
    subRowOf 80 * 3 + subColOf 80 < 11 ∧ nextRowOf 80 * 3 + nextColOf 80 < 11 ∧
    ((2 : Int) * 3 + 2).toNat < 11 ∧
    rootState.take_action 80 =
      if rootState.rejectsMove 80 then none else some (rootState.childState 80) :=
  index_arithmetic_in_bounds rootState 80 (by norm_num) 2 2 (by norm_num) (by norm_num)
    (by norm_num) (by norm_num)
